import Mathlib

/-!
Shallow embedding of the gpioctrl line-binding and synchronization engine
(src/src/gpioctrl.c).  Pure data is modelled by Lean structures, the external
collaborators (variable server, libgpiod, libc) by explicit function
parameters, and the side effects of each handler by an explicit trace of
`Eff` events returned alongside the result code and the updated registry.
Machine integers are modelled as `Int`/`Nat`; pointers are modelled as `Nat`
handles with `0` playing the role of `NULL`.
-/

namespace Gpioctrl

/-! ### errno values (from errno.h, as returned by the C code) -/

def EOK : Int := 0
def ENOENT : Int := 2
def EIO : Int := 5
def EINVAL : Int := 22
def ENOTSUP : Int := 95

/-! ### libgpiod v1 constants (from gpiod.h) -/

def GPIOD_LINE_DIRECTION_INPUT : Int := 1
def GPIOD_LINE_DIRECTION_OUTPUT : Int := 2

def GPIOD_LINE_REQUEST_DIRECTION_AS_IS : Int := 1
def GPIOD_LINE_REQUEST_DIRECTION_INPUT : Int := 2
def GPIOD_LINE_REQUEST_DIRECTION_OUTPUT : Int := 3
def GPIOD_LINE_REQUEST_EVENT_FALLING_EDGE : Int := 4
def GPIOD_LINE_REQUEST_EVENT_RISING_EDGE : Int := 5
def GPIOD_LINE_REQUEST_EVENT_BOTH_EDGES : Int := 6

def GPIOD_LINE_REQUEST_FLAG_OPEN_DRAIN : Nat := 1
def GPIOD_LINE_REQUEST_FLAG_OPEN_SOURCE : Nat := 2
def GPIOD_LINE_REQUEST_FLAG_ACTIVE_LOW : Nat := 4
def GPIOD_LINE_REQUEST_FLAG_BIAS_DISABLE : Nat := 8
def GPIOD_LINE_REQUEST_FLAG_BIAS_PULL_DOWN : Nat := 16
def GPIOD_LINE_REQUEST_FLAG_BIAS_PULL_UP : Nat := 32

def GPIOD_LINE_EVENT_RISING_EDGE : Int := 1
def GPIOD_LINE_EVENT_FALLING_EDGE : Int := 2

def GPIOD_LINE_BULK_MAX_LINES : Nat := 64

/-! ### varserver constants (varserver.h is an external interface; the
numeric values are opaque to gpioctrl, only their distinctness is used) -/

def VAR_INVALID : Nat := 0
def VARTYPE_UINT16 : Int := 2
def NOTIFY_MODIFIED : Int := 1
def NOTIFY_CALC : Int := 2
def NOTIFY_PRINT : Int := 3

/-- A varserver `VarObject` as used by gpioctrl: a type tag, the `val.ui`
union member, and the `len` field. -/
structure VarObject where
  type : Int
  ui : Nat
  len : Nat
  deriving DecidableEq, Repr

/-- The `_gpio` line descriptor (`GPIO` struct in gpioctrl.c).
`pLine` is the handle of the owned `gpiod_line` (0 = NULL);
`hVar` is the bound variable handle (0 = VAR_INVALID). -/
structure GPIO where
  pLine : Nat
  hVar : Nat
  line_num : Int
  name : String
  value : Int
  direction : Int
  PWM : Bool
  event_type : Int
  req_request_type : Int
  req_flags : Nat
  deriving DecidableEq, Repr

/-- The `_gpio_chip` chip descriptor: chip name plus its lines in
insertion (configuration) order. -/
structure GPIOChip where
  name : String
  lines : List GPIO
  deriving DecidableEq, Repr

/-- The registry: the list of chips in insertion order
(`pFirstGPIOChip` .. `pLastGPIOChip`). -/
abbrev Registry := List GPIOChip

/-- One observable side effect of a handler: a call into the variable
service or into the gpiod hardware layer. -/
inductive Eff where
  | varGet (h : Nat)
  | varSet (h : Nat) (v : VarObject)
  | varNotify (h : Nat) (ntype : Int)
  | hwSet (line : Nat) (value : Int)
  | hwGet (line : Nat)
  | hwRequest (line : Nat) (reqType : Int) (flags : Nat) (value : Int)
  | pwmStart (line : Nat)
  deriving DecidableEq, Repr

/-- Project the hardware line writes (`gpiod_line_set_value` calls) out of a
trace. -/
def hwSets (tr : List Eff) : List (Nat × Int) :=
  tr.filterMap fun e =>
    match e with
    | Eff.hwSet l v => some (l, v)
    | _ => none

/-- Project the variable-service reads (`VAR_Get` calls) out of a trace. -/
def varGets (tr : List Eff) : List Nat :=
  tr.filterMap fun e =>
    match e with
    | Eff.varGet h => some h
    | _ => none

/-- Project the hardware line reads (`gpiod_line_get_value` calls) out of a
trace. -/
def hwGets (tr : List Eff) : List Nat :=
  tr.filterMap fun e =>
    match e with
    | Eff.hwGet l => some l
    | _ => none

/-- Project the variable writes (`VAR_Set` calls) out of a trace. -/
def varSets (tr : List Eff) : List (Nat × VarObject) :=
  tr.filterMap fun e =>
    match e with
    | Eff.varSet h v => some (h, v)
    | _ => none

/-- Inner loop of `FindGPIO`: scan the lines of one chip for a variable
handle match; first match wins. -/
def findInLines : List GPIO → Nat → Option GPIO
  | [], _ => none
  | g :: rest, hVar => if g.hVar = hVar then some g else findInLines rest hVar

/-- Outer loop of `FindGPIO`: scan the chips in insertion order. -/
def findGPIOScan : List GPIOChip → Nat → Option GPIO
  | [], _ => none
  | c :: rest, hVar =>
    match findInLines c.lines hVar with
    | some g => some g
    | none => findGPIOScan rest hVar

/-- `FindGPIO`: find the line descriptor bound to a variable handle
(NULL/invalid handle short-circuits to not-found, as in the C guard). -/
def FindGPIO (chips : List GPIOChip) (hVar : Nat) : Option GPIO :=
  if hVar = VAR_INVALID then none else findGPIOScan chips hVar

/-- Inner loop of `FindVar`: scan one chip's lines for a gpiod-line handle
match. -/
def findVarInLines : List GPIO → Nat → Option Nat
  | [], _ => none
  | g :: rest, pLine => if g.pLine = pLine then some g.hVar else findVarInLines rest pLine

/-- Outer loop of `FindVar`. -/
def findVarScan : List GPIOChip → Nat → Option Nat
  | [], _ => none
  | c :: rest, pLine =>
    match findVarInLines c.lines pLine with
    | some h => some h
    | none => findVarScan rest pLine

/-- `FindVar`: reverse lookup from a gpiod line handle to the bound
variable handle, returning `VAR_INVALID` when absent. -/
def FindVar (chips : List GPIOChip) (pLine : Nat) : Nat :=
  if pLine = 0 then VAR_INVALID
  else
    match findVarScan chips pLine with
    | some h => h
    | none => VAR_INVALID

/-- Replace (the C code mutates in place) the first line whose `hVar`
matches, within one chip's line list; the Bool reports whether a
replacement happened. -/
def replaceInLines : List GPIO → Nat → GPIO → List GPIO × Bool
  | [], _, _ => ([], false)
  | g :: rest, hVar, g2 =>
    if g.hVar = hVar then (g2 :: rest, true)
    else
      let p := replaceInLines rest hVar g2
      (g :: p.1, p.2)

/-- Replace the first line (in the `FindGPIO` scan order) bound to `hVar`
across the registry.  This models the C code's in-place mutation of the
descriptor returned by `FindGPIO`. -/
def replaceLine : List GPIOChip → Nat → GPIO → List GPIOChip
  | [], _, _ => []
  | c :: rest, hVar, g2 =>
    let p := replaceInLines c.lines hVar g2
    if p.2 then { c with lines := p.1 } :: rest
    else c :: replaceLine rest hVar g2

/-- Result of `UpdateOutput`: errno-style result code, the registry after
the descriptor mutation, and the trace of external calls. -/
structure UpdateOutcome where
  result : Int
  chips : List GPIOChip
  trace : List Eff
  deriving Repr

/-- `UpdateOutput` (gpioctrl.c lines 1905-1984): handle a SIG_VAR_MODIFIED
event.  `varGet` models `VAR_Get` (`none` = failure), `setRC` models the
return code of `gpiod_line_set_value`, `errnoV` the value of `errno` after
a failed hardware write. -/
def UpdateOutput (hVar : Nat) (chips : List GPIOChip)
    (varGet : Nat → Option VarObject) (setRC : Nat → Int → Int) (errnoV : Int) :
    UpdateOutcome :=
  if hVar = VAR_INVALID then ⟨EINVAL, chips, []⟩
  else
    match FindGPIO chips hVar with
    | none => ⟨ENOENT, chips, []⟩
    | some g =>
      if g.direction = GPIOD_LINE_DIRECTION_OUTPUT then
        match varGet hVar with
        | none => ⟨ENOENT, chips, [Eff.varGet hVar]⟩
        | some var =>
          if var.type = VARTYPE_UINT16 then
            if g.PWM then
              -- pGPIO->value = ( var.val.ui <= 255 ) ? var.val.ui : 255;
              -- (result keeps its EINVAL initialization in this branch)
              let v : Int := if (var.ui : Int) ≤ 255 then (var.ui : Int) else 255
              ⟨EINVAL, replaceLine chips hVar { g with value := v }, [Eff.varGet hVar]⟩
            else
              -- pGPIO->value = ( var.val.ui > 0 ) ? 1 : 0;
              let v : Int := if (var.ui : Int) > 0 then 1 else 0
              let rc := setRC g.pLine v
              -- result = ( rc == EOK ) ? EOK : errno; ... result = EOK;
              let _unused : Int := if rc = EOK then EOK else errnoV
              ⟨EOK, replaceLine chips hVar { g with value := v },
                [Eff.varGet hVar, Eff.hwSet g.pLine v]⟩
          else ⟨ENOTSUP, chips, [Eff.varGet hVar]⟩
      else ⟨ENOTSUP, chips, []⟩

/-- `UpdateInput` (gpioctrl.c lines 2011-2066): handle a SIG_VAR_CALC
(query) event.  `lineGetRC` models `gpiod_line_get_value` (-1 = failure),
`varSetRC` models the result of `VAR_Set`. -/
def UpdateInput (hVar : Nat) (chips : List GPIOChip)
    (lineGetRC : Nat → Int) (varSetRC : Nat → VarObject → Int) :
    Int × List Eff :=
  if hVar = VAR_INVALID then (EINVAL, [])
  else
    match FindGPIO chips hVar with
    | none => (ENOENT, [])
    | some g =>
      if g.direction = GPIOD_LINE_DIRECTION_INPUT then
        let rc := lineGetRC g.pLine
        if rc ≠ -1 then
          let v : VarObject := ⟨VARTYPE_UINT16, if rc > 0 then 1 else 0, 2⟩
          (varSetRC hVar v, [Eff.hwGet g.pLine, Eff.varSet hVar v])
        else ( EIO, [Eff.hwGet g.pLine])
      else (ENOTSUP, [])

/-- `HandleGPIOEvent` (gpioctrl.c lines 446-488): process one edge event in
watch mode.  `eventRead` models `gpiod_line_event_read` (`some etype` when
the read succeeds with that `event_type`, `none` on failure). -/
def HandleGPIOEvent (chips : List GPIOChip) (pLine : Nat)
    (eventRead : Option Int) (varSetRC : Nat → VarObject → Int) :
    Int × List Eff :=
  if pLine = 0 then (EINVAL, [])
  else
    match eventRead with
    | none => ( EIO, [])
    | some etype =>
      -- val = ( event.event_type == GPIOD_LINE_EVENT_RISING_EDGE ) ? 1 : 0;
      let val : Nat := if etype = GPIOD_LINE_EVENT_RISING_EDGE then 1 else 0
      let h := FindVar chips pLine
      if h ≠ VAR_INVALID then
        let v : VarObject := ⟨VARTYPE_UINT16, val, 2⟩
        (varSetRC h v, [Eff.varSet h v])
      else (ENOENT, [])

/-- `RequestLine` (gpioctrl.c lines 862-912): decide whether this process
instance acquires the hardware line and, if so, perform the request.
`service` models `pState->service` (`none` = NULL), `requestRC` the return
code of `gpiod_line_request` given (line, request_type, flags, value). -/
def RequestLine (g : GPIO) (gpiowatch : Bool) (service : Option String)
    (requestRC : Nat → Int → Nat → Int → Int) (errnoV : Int) :
    Int × GPIO × List Eff :=
  match service with
  | none => (EINVAL, g, [])
  | some _ =>
    -- pGPIO->request.consumer = pState->service; pGPIO->request.flags = 0;
    let g1 := { g with req_flags := 0 }
    let g2 :=
      if g1.event_type ≠ 0 then { g1 with req_request_type := g1.event_type }
      else g1
    let request :=
      (gpiowatch && decide (g2.event_type ≠ 0)) ||
      (!gpiowatch && decide (g2.event_type = 0))
    if request then
      let value : Int := if g2.PWM then 0 else g2.value
      let rc := requestRC g2.pLine g2.req_request_type g2.req_flags value
      ((if rc = -1 then errnoV else EOK), g2,
        [Eff.hwRequest g2.pLine g2.req_request_type g2.req_flags value])
    else (EOK, g2, [])

/-- One hardware/timer action of the PWM thread loop. -/
inductive PwmAct where
  | setLine (line : Nat) (value : Int)
  | sleep (usec : Int)
  deriving DecidableEq, Repr

/-- One cycle of `PWMThread` (gpioctrl.c lines 2301-2352): clamp the stored
value to [0,255], then conditionally drive high and sleep, then
conditionally drive low and sleep.  Returns the descriptor after the
in-place clamp and the list of actions performed in order. -/
def PWMCycle (g : GPIO) : GPIO × List PwmAct :=
  let v1 : Int := if g.value < 0 then 0 else g.value
  let v2 : Int := if v1 > 255 then 255 else v1
  let g2 := { g with value := v2 }
  let t1 : Int := v2 * 40
  let acts1 : List PwmAct :=
    if t1 > 0 then [PwmAct.setLine g2.pLine 1, PwmAct.sleep t1] else []
  let t2 : Int := (255 - v2) * 40
  let acts2 : List PwmAct :=
    if t2 > 0 then [PwmAct.setLine g2.pLine 0, PwmAct.sleep t2] else []
  (g2, acts1 ++ acts2)

/-! ### The configuration binder (ParseLine pipeline) -/

/-- One "line" object of the configuration document, as consumed through
the tjson string accessors (`JSON_GetStr` returning NULL is `none`). -/
structure LineNode where
  varAttr : Option String
  lineAttr : Option String
  direction : Option String
  active_state : Option String
  event : Option String
  bias : Option String
  drive : Option String
  deriving DecidableEq, Repr

/-- The external environment of the binder: varserver name lookup
(`VAR_FindByName`, 0 = VAR_INVALID), libc `strtoul`, the current chip's
`gpiod_chip_get_line`, `VAR_Get`, the operating mode, the service name and
the gpiod request outcome. -/
structure BindEnv where
  findByName : String → Nat
  strtoul : String → Nat
  chipGetLine : Nat → Option Nat
  varGet : Nat → Option VarObject
  gpiowatch : Bool
  service : String
  requestRC : Nat → Int → Nat → Int → Int
  errnoV : Int

/-- `GetVarHandle` (gpioctrl.c lines 1156-1180): resolve the "var"
attribute to a variable handle and its name. -/
def GetVarHandle (env : BindEnv) (node : LineNode) : Option (Nat × String) :=
  match node.varAttr with
  | none => none
  | some varname =>
    let h := env.findByName varname
    if h = VAR_INVALID then none else some (h, varname)

/-- `CreateLine` (gpioctrl.c lines 1042-1130): resolve the variable and the
line number, obtain the gpiod line handle, and allocate the zero-initialized
descriptor (calloc).  Returns `none` when any step fails (the line is then
not added to the chip's list). -/
def CreateLine (env : BindEnv) (node : LineNode) : Option GPIO :=
  match GetVarHandle env node with
  | none => none
  | some (h, varname) =>
    match node.lineAttr with
    | none => none
    | some line_str =>
      let line_num := env.strtoul line_str
      match env.chipGetLine line_num with
      | none => none
      | some pLine =>
        some { pLine := pLine, hVar := h, line_num := (line_num : Int),
               name := varname, value := 0, direction := 0, PWM := false,
               event_type := 0, req_request_type := 0, req_flags := 0 }

/-- `GetLineOutputValue` (gpioctrl.c lines 1569-1615): seed the descriptor's
`value` from the bound variable, only for output-direction lines holding a
UINT16. -/
def GetLineOutputValue (varGet : Nat → Option VarObject) (g : GPIO) :
    Int × GPIO :=
  if g.hVar = VAR_INVALID ∨ g.pLine = 0 then (EINVAL, g)
  else if g.direction = GPIOD_LINE_DIRECTION_OUTPUT then
    match varGet g.hVar with
    | some var =>
      if var.type = VARTYPE_UINT16 then (EOK, { g with value := (var.ui : Int) })
      else (ENOTSUP, g)
    | none => (ENOENT, g)
  else (ENOTSUP, g)

/-- `ParseLineDirection` (gpioctrl.c lines 1213-1263): a missing
"direction" attribute defaults to "input"; `input`/`output`/`pwm` set the
direction, request type and (for outputs) the seeded value; any other
string yields ENOTSUP and leaves the descriptor untouched. -/
def ParseLineDirection (varGet : Nat → Option VarObject) (g : GPIO)
    (node : LineNode) : Int × GPIO :=
  if g.pLine = 0 then (EINVAL, g)
  else
    let direction := match node.direction with
                     | none => "input"
                     | some d => d
    if direction = "input" then
      (EOK, { g with direction := GPIOD_LINE_DIRECTION_INPUT,
                     req_request_type := GPIOD_LINE_REQUEST_DIRECTION_INPUT })
    else if direction = "output" then
      let g2 := { g with direction := GPIOD_LINE_DIRECTION_OUTPUT,
                         req_request_type := GPIOD_LINE_REQUEST_DIRECTION_OUTPUT }
      (EOK, (GetLineOutputValue varGet g2).2)
    else if direction = "pwm" then
      let g2 := { g with PWM := true,
                         direction := GPIOD_LINE_DIRECTION_OUTPUT,
                         req_request_type := GPIOD_LINE_REQUEST_DIRECTION_OUTPUT }
      (EOK, (GetLineOutputValue varGet g2).2)
    else (ENOTSUP, g)

/-- `ParseLineActiveState` (gpioctrl.c lines 1293-1328): "low" sets the
active-low request flag, "high" clears it (32-bit `&= ~FLAG`), anything
else is ENOTSUP with no change; a missing attribute is EOK with no
change. -/
def ParseLineActiveState (g : GPIO) (node : LineNode) : Int × GPIO :=
  match node.active_state with
  | none => (EOK, g)
  | some s =>
    if s = "low" then
      (EOK, { g with req_flags := Nat.lor g.req_flags GPIOD_LINE_REQUEST_FLAG_ACTIVE_LOW })
    else if s = "high" then
      (EOK, { g with req_flags := Nat.land g.req_flags (4294967295 - GPIOD_LINE_REQUEST_FLAG_ACTIVE_LOW) })
    else (ENOTSUP, g)

/-- `ParseLineEvent` (gpioctrl.c lines 1355-1401): RISING_EDGE /
FALLING_EDGE / BOTH_EDGES set the event subscription; anything else (and a
missing attribute) forces it to none (0). -/
def ParseLineEvent (g : GPIO) (node : LineNode) : Int × GPIO :=
  match node.event with
  | none => (EOK, { g with event_type := 0 })
  | some s =>
    if s = "RISING_EDGE" then
      (EOK, { g with event_type := GPIOD_LINE_REQUEST_EVENT_RISING_EDGE })
    else if s = "FALLING_EDGE" then
      (EOK, { g with event_type := GPIOD_LINE_REQUEST_EVENT_FALLING_EDGE })
    else if s = "BOTH_EDGES" then
      (EOK, { g with event_type := GPIOD_LINE_REQUEST_EVENT_BOTH_EDGES })
    else (ENOTSUP, { g with event_type := 0 })

/-- `ParseLineBias` (gpioctrl.c lines 1432-1470). -/
def ParseLineBias (g : GPIO) (node : LineNode) : Int × GPIO :=
  match node.bias with
  | none => (EOK, g)
  | some s =>
    if s = "disabled" then
      (EOK, { g with req_flags := Nat.lor g.req_flags GPIOD_LINE_REQUEST_FLAG_BIAS_DISABLE })
    else if s = "pull-down" then
      (EOK, { g with req_flags := Nat.lor g.req_flags GPIOD_LINE_REQUEST_FLAG_BIAS_PULL_DOWN })
    else if s = "pull-up" then
      (EOK, { g with req_flags := Nat.lor g.req_flags GPIOD_LINE_REQUEST_FLAG_BIAS_PULL_UP })
    else (ENOTSUP, g)

/-- `ParseLineDrive` (gpioctrl.c lines 1500-1541): push-pull clears the
open-drain/open-source bits (32-bit `&= ~(OPEN_DRAIN|OPEN_SOURCE)`). -/
def ParseLineDrive (g : GPIO) (node : LineNode) : Int × GPIO :=
  match node.drive with
  | none => (EOK, g)
  | some s =>
    if s = "push-pull" then
      (EOK, { g with req_flags := Nat.land g.req_flags (4294967295 - 3) })
    else if s = "open-source" then
      (EOK, { g with req_flags := Nat.lor g.req_flags GPIOD_LINE_REQUEST_FLAG_OPEN_SOURCE })
    else if s = "open-drain" then
      (EOK, { g with req_flags := Nat.lor g.req_flags GPIOD_LINE_REQUEST_FLAG_OPEN_DRAIN })
    else (ENOTSUP, g)

/-- `SetupNotification` (gpioctrl.c lines 986-1010): in signal mode,
polled inputs get a CALC notification, outputs (plain and PWM) a MODIFIED
notification.  `notifyRC` models the result of `VAR_Notify`. -/
def SetupNotification (g : GPIO) (gpiowatch : Bool)
    (notifyRC : Nat → Int → Int) : Int × List Eff :=
  if gpiowatch then (EINVAL, [])
  else if g.direction = GPIOD_LINE_DIRECTION_INPUT ∧ g.event_type = 0 then
    (notifyRC g.hVar NOTIFY_CALC, [Eff.varNotify g.hVar NOTIFY_CALC])
  else if g.direction = GPIOD_LINE_DIRECTION_OUTPUT then
    (notifyRC g.hVar NOTIFY_MODIFIED, [Eff.varNotify g.hVar NOTIFY_MODIFIED])
  else (EINVAL, [])

/-- `ParseLine` (gpioctrl.c lines 783-839): the JSON_Iterate callback for
one line definition.  Creates the descriptor, parses its attributes,
requests the line, tracks it in the bounded edge-monitor set, registers the
variable notification and (in signal mode) starts the PWM task.  Always
returns EOK to the iterator.  The result is (result, chip's line list,
monitored-line set, effect trace). -/
def ParseLine (env : BindEnv) (node : LineNode)
    (chipLines : List GPIO) (monitored : List Nat) :
    Int × List GPIO × List Nat × List Eff :=
  match CreateLine env node with
  | none => (EOK, chipLines, monitored, [])
  | some g0 =>
    let g1 := (ParseLineDirection env.varGet g0 node).2
    let g2 := (ParseLineActiveState g1 node).2
    let g3 := (ParseLineEvent g2 node).2
    let g4 := (ParseLineBias g3 node).2
    let g5 := (ParseLineDrive g4 node).2
    let r := RequestLine g5 env.gpiowatch (some env.service)
               env.requestRC env.errnoV
    let g6 := r.2.1
    let monitored2 :=
      if g6.event_type ≠ 0 ∧ monitored.length < GPIOD_LINE_BULK_MAX_LINES
      then monitored ++ [g6.pLine] else monitored
    let sn := SetupNotification g6 env.gpiowatch (fun _ _ => EOK)
    let tr := r.2.2 ++ sn.2 ++
      (if env.gpiowatch = false ∧ g6.PWM = true
       then [Eff.pwmStart g6.pLine] else [])
    (EOK, chipLines ++ [g6], monitored2, tr)

/-- `JSON_Iterate` over the "lines" array with `ParseLine` as callback
(gpioctrl.c line 740).  Modelled from the spec: tjson's `JSON_Iterate` is
an external collaborator ("an iterate-over-array-of-objects operation");
per the spec's failure-policy discussion it continues while the callback
reports success and would abort on a callback failure. -/
def IterateLines (env : BindEnv) :
    List LineNode → List GPIO → List Nat →
    Int × List GPIO × List Nat × List Eff
  | [], chipLines, monitored => (EOK, chipLines, monitored, [])
  | node :: rest, chipLines, monitored =>
    let r := ParseLine env node chipLines monitored
    if r.1 = EOK then
      let r2 := IterateLines env rest r.2.1 r.2.2.1
      (r2.1, r2.2.1, r2.2.2.1, r.2.2.2 ++ r2.2.2.2)
    else r

/-! ### The status reporter (PrintStatus / PrintLineInfo) -/

/-- Fuelled digit accumulator: with fuel above `n` this computes the
decimal digits of `n`. -/
def natDigitsAux (fuel : Nat) (n : Nat) : List Char :=
  match fuel with
  | 0 => []
  | fuel2 + 1 =>
    if n < 10 then [Nat.digitChar n]
    else natDigitsAux fuel2 (n / 10) ++ [Nat.digitChar (n % 10)]

/-- Decimal digit list of a natural number, as produced by printf %d for a
non-negative value. -/
def natDigits (n : Nat) : List Char := natDigitsAux (n + 1) n

/-- printf %d rendering of a C int. -/
def intRepr (i : Int) : List Char :=
  if i < 0 then '-' :: natDigits (-i).toNat else natDigits i.toNat

/-- Literal chunk of `PrintLineInfo`: everything before the line number. -/
def litLineA : List Char := "\x7b \"line\" : ".toList

/-- Literal chunk between the line number and the hardware line name. -/
def litLineB : List Char := ", \"name\" : \"".toList

/-- Literal chunk between the line name and the variable name (includes the
quote closing the line name). -/
def litLineC : List Char := "\", \"var\" : \"".toList

/-- `litLineC` without its leading closing quote. -/
def litLineCtail : List Char := ", \"var\" : \"".toList

/-- Literal chunk closing a line object (closing quote plus brace). -/
def litLineD : List Char := "\"\x7d".toList

/-- Literal chunk of `PrintStatus` opening a chip object. -/
def litChipA : List Char := "\x7b \"chip\" : \"".toList

/-- Literal chunk between the chip name and its line array (includes the
quote closing the chip name). -/
def litChipB : List Char := "\", \"lines\" : [".toList

/-- `litChipB` without its leading closing quote. -/
def litChipBtail : List Char := ", \"lines\" : [".toList

/-- Literal chunk closing a chip object (bracket closing the line array
plus the chip's closing brace). -/
def litChipC : List Char := "]\x7d".toList

/-- Closing brace chunk. -/
def litClose : List Char := "\x7d".toList

/-- `PrintLineInfo` (gpioctrl.c lines 2165-2193): the JSON object emitted
for one line; nothing is emitted when the gpiod line handle is NULL.
`lineName` models `gpiod_line_name`, `none` = NULL (printed as
"unknown"). -/
def printLine (lineName : Nat → Option String) (g : GPIO) : List Char :=
  if g.pLine = 0 then []
  else
    litLineA ++ intRepr g.line_num ++ litLineB ++
    ((lineName g.pLine).getD "unknown").toList ++ litLineC ++
    g.name.toList ++ litLineD

/-- The comma-prefixed remainder of a chip's line list as emitted by the
`PrintStatus` inner loop. -/
def printLinesTail (lineName : Nat → Option String) : List GPIO → List Char
  | [] => []
  | g :: rest => ',' :: (printLine lineName g ++ printLinesTail lineName rest)

/-- A chip's line list as emitted by the `PrintStatus` inner loop (comma
before every line except the first). -/
def printLines (lineName : Nat → Option String) : List GPIO → List Char
  | [] => []
  | g :: rest => printLine lineName g ++ printLinesTail lineName rest

/-- One chip object as emitted by `PrintStatus`. -/
def printChip (lineName : Nat → Option String) (c : GPIOChip) : List Char :=
  litChipA ++ c.name.toList ++ litChipB ++
  printLines lineName c.lines ++ litChipC

/-- The comma-prefixed remainder of the chip list. -/
def printChipsTail (lineName : Nat → Option String) : List GPIOChip → List Char
  | [] => []
  | c :: rest => ',' :: (printChip lineName c ++ printChipsTail lineName rest)

/-- The chip list (comma before every chip except the first). -/
def printChips (lineName : Nat → Option String) : List GPIOChip → List Char
  | [] => []
  | c :: rest => printChip lineName c ++ printChipsTail lineName rest

/-- `PrintStatus` (gpioctrl.c lines 2088-2139): the full serialized status,
a JSON array of chip objects in chip-then-line insertion order. -/
def PrintStatus (lineName : Nat → Option String) (chips : List GPIOChip) :
    List Char :=
  '[' :: (printChips lineName chips ++ [']'])

/-- One parsed line entry: line number, hardware line name, variable
name. -/
abbrev LineEntry := Int × List Char × List Char

/-- One parsed chip entry: chip name and its line entries in order. -/
abbrev ChipEntry := List Char × List LineEntry

/-- The entry the status report carries for one line: line number,
hardware line name (or "unknown"), bound variable name. -/
def lineEntry (lineName : Nat → Option String) (g : GPIO) : LineEntry :=
  (g.line_num, ((lineName g.pLine).getD "unknown").toList, g.name.toList)

/-- The abstract listing of the registry: exactly the chips and lines
present, in insertion order, with the fields the status report carries. -/
def statusListing (lineName : Nat → Option String) (chips : List GPIOChip) :
    List ChipEntry :=
  chips.map fun c => (c.name.toList, c.lines.map (lineEntry lineName))

/-- A line whose serialized fields are parseable: live handle and no
embedded quote character in either name. -/
abbrev GoodLine (lineName : Nat → Option String) (g : GPIO) : Prop :=
  g.pLine ≠ 0 ∧
  (∀ c ∈ ((lineName g.pLine).getD "unknown").toList, c ≠ '"') ∧
  (∀ c ∈ g.name.toList, c ≠ '"')

/-- A chip whose serialized fields are parseable. -/
abbrev GoodChip (lineName : Nat → Option String) (c : GPIOChip) : Prop :=
  (∀ ch ∈ c.name.toList, ch ≠ '"') ∧ ∀ g ∈ c.lines, GoodLine lineName g

/-! ### A parser for the status report output -/

/-- Expect an exact literal prefix, returning the remainder. -/
def expectStr : List Char → List Char → Option (List Char)
  | [], cs => some cs
  | _ :: _, [] => none
  | l :: ls, c :: cs => if c = l then expectStr ls cs else none

/-- Parse a quoted-string body: everything up to the next quote, which is
consumed. -/
def parseName : List Char → Option (List Char × List Char)
  | [] => none
  | c :: cs =>
    if c = '"' then some ([], cs)
    else
      match parseName cs with
      | none => none
      | some (nm, rest) => some (c :: nm, rest)

/-- Greedily parse decimal digits into an accumulator. -/
def parseNatAux : List Char → Nat → Nat × List Char
  | [], acc => (acc, [])
  | c :: cs, acc =>
    if c.isDigit then parseNatAux cs (acc * 10 + (c.toNat - 48))
    else (acc, c :: cs)

/-- Parse an optionally negated decimal integer. -/
def parseInt : List Char → Int × List Char
  | [] => (0, [])
  | c :: cs =>
    if c = '-' then
      ((-(parseNatAux cs 0).1 : Int), (parseNatAux cs 0).2)
    else
      (((parseNatAux (c :: cs) 0).1 : Int), (parseNatAux (c :: cs) 0).2)

/-- Parse one line object of the status report. -/
def parseLineObj (cs : List Char) : Option (LineEntry × List Char) :=
  match expectStr litLineA cs with
  | none => none
  | some cs1 =>
    match expectStr litLineB (parseInt cs1).2 with
    | none => none
    | some cs2 =>
      match parseName cs2 with
      | none => none
      | some (nm, cs3) =>
        match expectStr litLineCtail cs3 with
        | none => none
        | some cs4 =>
          match parseName cs4 with
          | none => none
          | some (vn, cs5) =>
            match expectStr litClose cs5 with
            | none => none
            | some cs6 => some (((parseInt cs1).1, nm, vn), cs6)

/-- Parse the comma-separated remainder of a line array, up to and
including its closing bracket. -/
def parseLinesGo : Nat → List Char → Option (List LineEntry × List Char)
  | _, [] => none
  | fuel, c :: cs =>
    if c = ']' then some ([], cs)
    else if c = ',' then
      match fuel with
      | 0 => none
      | fuel2 + 1 =>
        match parseLineObj cs with
        | none => none
        | some (e, cs2) =>
          match parseLinesGo fuel2 cs2 with
          | none => none
          | some (l, rest) => some (e :: l, rest)
    else none

/-- Parse a full line array, up to and including its closing bracket. -/
def parseLinesList (fuel : Nat) (cs : List Char) :
    Option (List LineEntry × List Char) :=
  match cs with
  | [] => none
  | c :: cs2 =>
    if c = ']' then some ([], cs2)
    else
      match parseLineObj (c :: cs2) with
      | none => none
      | some (e, cs3) =>
        match parseLinesGo fuel cs3 with
        | none => none
        | some (l, rest) => some (e :: l, rest)

/-- Parse one chip object of the status report. -/
def parseChip (cs : List Char) : Option (ChipEntry × List Char) :=
  match expectStr litChipA cs with
  | none => none
  | some cs1 =>
    match parseName cs1 with
    | none => none
    | some (cn, cs2) =>
      match expectStr litChipBtail cs2 with
      | none => none
      | some cs3 =>
        match parseLinesList cs.length cs3 with
        | none => none
        | some (ls, cs4) =>
          match expectStr litClose cs4 with
          | none => none
          | some cs5 => some ((cn, ls), cs5)

/-- Parse the comma-separated remainder of the chip array, up to and
including the closing bracket. -/
def parseChipsGo : Nat → List Char → Option (List ChipEntry × List Char)
  | _, [] => none
  | fuel, c :: cs =>
    if c = ']' then some ([], cs)
    else if c = ',' then
      match fuel with
      | 0 => none
      | fuel2 + 1 =>
        match parseChip cs with
        | none => none
        | some (e, cs2) =>
          match parseChipsGo fuel2 cs2 with
          | none => none
          | some (l, rest) => some (e :: l, rest)
    else none

/-- Parse a complete status report: a bracketed, comma-separated array of
chip objects, with nothing left over. -/
def parseStatus (cs : List Char) : Option (List ChipEntry) :=
  match cs with
  | [] => none
  | c :: cs2 =>
    if c = '[' then
      match cs2 with
      | [] => none
      | c2 :: cs3 =>
        if c2 = ']' then (if cs3 = [] then some [] else none)
        else
          match parseChip (c2 :: cs3) with
          | none => none
          | some (ce, cs4) =>
            match parseChipsGo cs.length cs4 with
            | none => none
            | some (l, rest) => if rest = [] then some (ce :: l) else none
    else none

/-- The head of the remaining input is not a digit (trivially true for
empty input). -/
def headNotDigit : List Char → Prop
  | [] => True
  | c :: _ => c.isDigit = false

/-- The digit-accumulation step of `parseNatAux`. -/
def stepD (a : Nat) (c : Char) : Nat := a * 10 + (c.toNat - 48)

/-! ### Trace projection simp lemmas -/

@[simp]
theorem hwSets_nil : hwSets [] = [] := rfl

@[simp]
theorem hwSets_cons_varGet (h : Nat) (tr : List Eff) :
    hwSets (Eff.varGet h :: tr) = hwSets tr := rfl

@[simp]
theorem hwSets_cons_varSet (h : Nat) (v : VarObject) (tr : List Eff) :
    hwSets (Eff.varSet h v :: tr) = hwSets tr := rfl

@[simp]
theorem hwSets_cons_hwSet (l : Nat) (v : Int) (tr : List Eff) :
    hwSets (Eff.hwSet l v :: tr) = (l, v) :: hwSets tr := rfl

@[simp]
theorem varGets_nil : varGets [] = [] := rfl

@[simp]
theorem varGets_cons_varSet (h : Nat) (v : VarObject) (tr : List Eff) :
    varGets (Eff.varSet h v :: tr) = varGets tr := rfl

@[simp]
theorem varGets_cons_varGet (h : Nat) (tr : List Eff) :
    varGets (Eff.varGet h :: tr) = h :: varGets tr := rfl

/-! ### Claim C1: non-PWM output write-through -/

/-- C1: for every bound line with direction `output` that is not a PWM
line, handling a 'modified' event for its bound variable, whose current
value is a UINT16 V, writes exactly one value to the hardware line: 1 if V
is nonzero, 0 if V is zero. -/
theorem updateOutput_nonpwm_writes_once
    (chips : List GPIOChip) (hVar : Nat) (g : GPIO) (var : VarObject)
    (varGet : Nat → Option VarObject) (setRC : Nat → Int → Int) (errnoV : Int)
    (hv : hVar ≠ VAR_INVALID)
    (hfind : FindGPIO chips hVar = some g)
    (hdir : g.direction = GPIOD_LINE_DIRECTION_OUTPUT)
    (hpwm : g.PWM = false)
    (hget : varGet hVar = some var)
    (hty : var.type = VARTYPE_UINT16) :
    hwSets (UpdateOutput hVar chips varGet setRC errnoV).trace =
      [(g.pLine, if var.ui = 0 then 0 else 1)] := by
  simp only [UpdateOutput, hv, hfind, hdir, hpwm, hget, hty, if_false,
    ite_true, ite_false, if_neg, reduceCtorEq, Bool.false_eq_true]
  simp only [hwSets_cons_varGet, hwSets_cons_hwSet, hwSets_nil]
  by_cases h : var.ui = 0 <;> simp [h]

/-- Witness for C1 at a concrete registry: chip gpiochip0, line handle 5
bound to variable handle 3 as a plain output, variable value 7 → exactly
one hardware write of 1. -/
theorem updateOutput_nonpwm_writes_once_witness :
    hwSets (UpdateOutput 3
      [⟨"gpiochip0", [⟨5, 3, 4, "/HW/GPIO/P4", 0, 2, false, 0, 3, 0⟩]⟩]
      (fun h => if h = 3 then some ⟨VARTYPE_UINT16, 7, 2⟩ else none)
      (fun _ _ => 0) 0).trace = [(5, 1)] := by
  have h := updateOutput_nonpwm_writes_once
    [⟨"gpiochip0", [⟨5, 3, 4, "/HW/GPIO/P4", 0, 2, false, 0, 3, 0⟩]⟩] 3
    ⟨5, 3, 4, "/HW/GPIO/P4", 0, 2, false, 0, 3, 0⟩ ⟨VARTYPE_UINT16, 7, 2⟩
    (fun h => if h = 3 then some ⟨VARTYPE_UINT16, 7, 2⟩ else none)
    (fun _ _ => 0) 0 (by decide) (by decide) rfl rfl (by decide) rfl
  simpa using h

/-! ### Claim C4: PWM modified event stores a clamped duty cycle -/

/-- C4: for every 'modified' event on a PWM line whose bound variable holds
a UINT16 value V, the handler stores min(V,255) into the descriptor's
`value` field as the new duty cycle, performs no hardware line write, and
leaves all other descriptor fields unchanged. -/
theorem updateOutput_pwm_clamps
    (chips : List GPIOChip) (hVar : Nat) (g : GPIO) (var : VarObject)
    (varGet : Nat → Option VarObject) (setRC : Nat → Int → Int) (errnoV : Int)
    (hv : hVar ≠ VAR_INVALID)
    (hfind : FindGPIO chips hVar = some g)
    (hdir : g.direction = GPIOD_LINE_DIRECTION_OUTPUT)
    (hpwm : g.PWM = true)
    (hget : varGet hVar = some var)
    (hty : var.type = VARTYPE_UINT16) :
    (UpdateOutput hVar chips varGet setRC errnoV).chips =
      replaceLine chips hVar { g with value := min (var.ui : Int) 255 } ∧
    hwSets (UpdateOutput hVar chips varGet setRC errnoV).trace = [] := by
  simp only [UpdateOutput, hv, hfind, hdir, hpwm, hget, hty, if_false,
    ite_true, ite_false, reduceCtorEq]
  refine ⟨?_, by simp⟩
  have hmin : min (var.ui : Int) 255 =
      if (var.ui : Int) ≤ 255 then (var.ui : Int) else 255 := min_def _ _
  rw [hmin]

/-- Witness for C4: a PWM line bound to variable 3, variable value 300 →
stored duty cycle clamped to 255 and no hardware write. -/
theorem updateOutput_pwm_clamps_witness :
    (UpdateOutput 3
      [⟨"gpiochip0", [⟨5, 3, 4, "/HW/GPIO/P4", 9, 2, true, 0, 3, 0⟩]⟩]
      (fun h => if h = 3 then some ⟨VARTYPE_UINT16, 300, 2⟩ else none)
      (fun _ _ => 0) 0).chips =
      [⟨"gpiochip0", [⟨5, 3, 4, "/HW/GPIO/P4", 255, 2, true, 0, 3, 0⟩]⟩] ∧
    hwSets (UpdateOutput 3
      [⟨"gpiochip0", [⟨5, 3, 4, "/HW/GPIO/P4", 9, 2, true, 0, 3, 0⟩]⟩]
      (fun h => if h = 3 then some ⟨VARTYPE_UINT16, 300, 2⟩ else none)
      (fun _ _ => 0) 0).trace = [] := by
  have h := updateOutput_pwm_clamps
    [⟨"gpiochip0", [⟨5, 3, 4, "/HW/GPIO/P4", 9, 2, true, 0, 3, 0⟩]⟩] 3
    ⟨5, 3, 4, "/HW/GPIO/P4", 9, 2, true, 0, 3, 0⟩ ⟨VARTYPE_UINT16, 300, 2⟩
    (fun h => if h = 3 then some ⟨VARTYPE_UINT16, 300, 2⟩ else none)
    (fun _ _ => 0) 0 (by decide) (by decide) rfl rfl (by decide) rfl
  constructor
  · rw [h.1]; decide
  · exact h.2

/-! ### Claim C10: hardware write failure is swallowed on output update -/

/-- C10 (implicit): for every 'modified' event on a non-PWM output line
whose variable holds a UINT16 value, `UpdateOutput` returns EOK regardless
of the hardware write's return code (`setRC` and `errnoV` are arbitrary,
including a failing `-1`), and the descriptor keeps the new boolean value
even though the hardware may not have been updated. -/
theorem updateOutput_result_ignores_hw_failure
    (chips : List GPIOChip) (hVar : Nat) (g : GPIO) (var : VarObject)
    (varGet : Nat → Option VarObject) (setRC : Nat → Int → Int) (errnoV : Int)
    (hv : hVar ≠ VAR_INVALID)
    (hfind : FindGPIO chips hVar = some g)
    (hdir : g.direction = GPIOD_LINE_DIRECTION_OUTPUT)
    (hpwm : g.PWM = false)
    (hget : varGet hVar = some var)
    (hty : var.type = VARTYPE_UINT16) :
    (UpdateOutput hVar chips varGet setRC errnoV).result = EOK ∧
    (UpdateOutput hVar chips varGet setRC errnoV).chips =
      replaceLine chips hVar
        { g with value := if (var.ui : Int) > 0 then 1 else 0 } := by
  simp only [UpdateOutput, hv, hfind, hdir, hpwm, hget, hty, if_false,
    ite_true, ite_false, reduceCtorEq, Bool.false_eq_true]
  simp

/-- Witness for C10: the hardware write fails (`setRC` returns -1, errno 5)
yet the result is EOK and the stored value is the new boolean 1. -/
theorem updateOutput_result_ignores_hw_failure_witness :
    (UpdateOutput 3
      [⟨"gpiochip0", [⟨5, 3, 4, "/HW/GPIO/P4", 0, 2, false, 0, 3, 0⟩]⟩]
      (fun h => if h = 3 then some ⟨VARTYPE_UINT16, 7, 2⟩ else none)
      (fun _ _ => -1) 5).result = EOK ∧
    (UpdateOutput 3
      [⟨"gpiochip0", [⟨5, 3, 4, "/HW/GPIO/P4", 0, 2, false, 0, 3, 0⟩]⟩]
      (fun h => if h = 3 then some ⟨VARTYPE_UINT16, 7, 2⟩ else none)
      (fun _ _ => -1) 5).chips =
      [⟨"gpiochip0", [⟨5, 3, 4, "/HW/GPIO/P4", 1, 2, false, 0, 3, 0⟩]⟩] := by
  have h := updateOutput_result_ignores_hw_failure
    [⟨"gpiochip0", [⟨5, 3, 4, "/HW/GPIO/P4", 0, 2, false, 0, 3, 0⟩]⟩] 3
    ⟨5, 3, 4, "/HW/GPIO/P4", 0, 2, false, 0, 3, 0⟩ ⟨VARTYPE_UINT16, 7, 2⟩
    (fun h => if h = 3 then some ⟨VARTYPE_UINT16, 7, 2⟩ else none)
    (fun _ _ => -1) 5 (by decide) (by decide) rfl rfl (by decide) rfl
  refine ⟨h.1, ?_⟩
  rw [h.2]; decide

/-! ### Claim C2: watch-mode edge events update the variable directly -/

/-- C2: in watch mode, for every monitored line whose edge event is
successfully read, the engine determines the new level from the event type
(rising edge gives 1, anything else — in particular a falling edge — gives
0), reverse-looks-up the owning variable via `FindVar`, and performs
exactly one `VAR_Set` of that level as a UINT16, with no variable
read/query in the trace. -/
theorem handleGPIOEvent_sets_level
    (chips : List GPIOChip) (pLine : Nat) (etype : Int) (h : Nat)
    (varSetRC : Nat → VarObject → Int)
    (hp : pLine ≠ 0)
    (hfind : FindVar chips pLine = h)
    (hv : h ≠ VAR_INVALID) :
    HandleGPIOEvent chips pLine (some etype) varSetRC =
      (varSetRC h
         ⟨VARTYPE_UINT16,
          if etype = GPIOD_LINE_EVENT_RISING_EDGE then 1 else 0, 2⟩,
       [Eff.varSet h
         ⟨VARTYPE_UINT16,
          if etype = GPIOD_LINE_EVENT_RISING_EDGE then 1 else 0, 2⟩]) ∧
    varGets (HandleGPIOEvent chips pLine (some etype) varSetRC).2 = [] := by
  simp only [HandleGPIOEvent, hp, hfind, hv, if_false, ite_true, ite_false,
    if_neg, ne_eq, not_false_eq_true, if_true]
  simp

/-- Witness for C2: line handle 9 monitored for both edges, bound to
variable 4; a falling-edge event writes 0 to variable 4. -/
theorem handleGPIOEvent_sets_level_witness :
    HandleGPIOEvent
      [⟨"gpiochip0", [⟨9, 4, 26, "/HW/GPIO/P26", 0, 1, false, 6, 2, 0⟩]⟩] 9
      (some GPIOD_LINE_EVENT_FALLING_EDGE) (fun _ _ => 0) =
      (0, [Eff.varSet 4 ⟨VARTYPE_UINT16, 0, 2⟩]) := by
  have h := handleGPIOEvent_sets_level
    [⟨"gpiochip0", [⟨9, 4, 26, "/HW/GPIO/P26", 0, 1, false, 6, 2, 0⟩]⟩] 9
    GPIOD_LINE_EVENT_FALLING_EDGE 4 (fun _ _ => 0)
    (by decide) (by decide) (by decide)
  simpa using h.1

/-! ### Claim C3: signal-mode query events read the input line -/

/-- C3: in signal mode, for every 'query' (calc) event whose variable is
bound to a line with direction input, the engine performs exactly one
hardware read of the line and one `VAR_Set` writing 1 if the read level is
positive else 0, as a UINT16; if the bound line's direction is not input,
no hardware read or variable write occurs and ENOTSUP is returned. -/
theorem updateInput_query_spec
    (chips : List GPIOChip) (hVar : Nat) (g : GPIO)
    (lineGetRC : Nat → Int) (varSetRC : Nat → VarObject → Int)
    (hv : hVar ≠ VAR_INVALID)
    (hfind : FindGPIO chips hVar = some g) :
    (g.direction = GPIOD_LINE_DIRECTION_INPUT → lineGetRC g.pLine ≠ -1 →
      UpdateInput hVar chips lineGetRC varSetRC =
        (varSetRC hVar
           ⟨VARTYPE_UINT16, if lineGetRC g.pLine > 0 then 1 else 0, 2⟩,
         [Eff.hwGet g.pLine,
          Eff.varSet hVar
            ⟨VARTYPE_UINT16, if lineGetRC g.pLine > 0 then 1 else 0, 2⟩])) ∧
    (g.direction ≠ GPIOD_LINE_DIRECTION_INPUT →
      UpdateInput hVar chips lineGetRC varSetRC = (ENOTSUP, [])) := by
  constructor
  · intro hdir hrc
    simp only [UpdateInput, hv, hfind, hdir, hrc, if_false, ite_true,
      ite_false, if_neg, ne_eq, not_false_eq_true, if_true]
  · intro hdir
    simp only [UpdateInput, hv, hfind, if_false, ite_true, ite_false]
    simp [hdir]

/-- Witness for C3: variable 4 bound to input line handle 9; the hardware
read returns level 1, so the query writes 1 into the variable. -/
theorem updateInput_query_spec_witness :
    UpdateInput 4
      [⟨"gpiochip0", [⟨9, 4, 26, "/HW/GPIO/P26", 0, 1, false, 0, 2, 0⟩]⟩]
      (fun _ => 1) (fun _ _ => 0) =
      (0, [Eff.hwGet 9, Eff.varSet 4 ⟨VARTYPE_UINT16, 1, 2⟩]) := by
  have h := updateInput_query_spec
    [⟨"gpiochip0", [⟨9, 4, 26, "/HW/GPIO/P26", 0, 1, false, 0, 2, 0⟩]⟩] 4
    ⟨9, 4, 26, "/HW/GPIO/P26", 0, 1, false, 0, 2, 0⟩
    (fun _ => 1) (fun _ _ => 0) (by decide) (by decide)
  simpa using h.1 rfl (by decide)

/-! ### Claim C5: the PWM cycle -/

/-- C5: each cycle of the PWM task first clamps the stored value to
[0,255] (in place), then drives the line high and sleeps for D×40
microseconds only when that on-duration is nonzero, then drives the line
low and sleeps for (255−D)×40 microseconds only when that off-duration is
nonzero; D=0 skips the high phase entirely and D=255 skips the low
phase entirely. -/
theorem pwmCycle_spec (g : GPIO) :
    PWMCycle g =
      ({ g with value := min (max g.value 0) 255 },
        (if min (max g.value 0) 255 ≠ 0 then
           [PwmAct.setLine g.pLine 1,
            PwmAct.sleep (min (max g.value 0) 255 * 40)]
         else []) ++
        (if min (max g.value 0) 255 ≠ 255 then
           [PwmAct.setLine g.pLine 0,
            PwmAct.sleep ((255 - min (max g.value 0) 255) * 40)]
         else [])) := by
  have hmax : (if g.value < 0 then (0 : Int) else g.value) = max g.value 0 := by
    rw [max_def]; split_ifs <;> omega
  have hmin : (if max g.value 0 > 255 then (255 : Int) else max g.value 0) =
      min (max g.value 0) 255 := by
    rw [min_def]; split_ifs <;> omega
  have hlb : (0 : Int) ≤ min (max g.value 0) 255 :=
    le_min (le_max_right g.value 0) (by norm_num)
  have hub : min (max g.value 0) 255 ≤ 255 := min_le_right _ _
  have h1 : (min (max g.value 0) 255 * 40 > 0) =
      (min (max g.value 0) 255 ≠ 0) := by
    apply propext; constructor <;> intro <;> omega
  have h2 : ((255 - min (max g.value 0) 255) * 40 > 0) =
      (min (max g.value 0) 255 ≠ 255) := by
    apply propext; constructor <;> intro <;> omega
  simp only [PWMCycle, hmax, hmin, h1, h2]

/-! ### Claim C6: line requests are gated on the operating mode -/

/-- C6: for every parsed line (non-NULL state/service), `RequestLine`
performs the hardware line request if and only if the operating mode
matches the line's event subscription — an edge-subscribed line is
requested only in watch mode, an unsubscribed line only in signal mode —
and when the mode does not match it makes no hardware request and still
returns EOK. -/
theorem requestLine_mode_gating
    (g : GPIO) (gpiowatch : Bool) (svc : String)
    (requestRC : Nat → Int → Nat → Int → Int) (errnoV : Int) :
    (((gpiowatch = true ∧ g.event_type ≠ 0) ∨
      (gpiowatch = false ∧ g.event_type = 0)) →
       (RequestLine g gpiowatch (some svc) requestRC errnoV).2.2 =
         [Eff.hwRequest g.pLine
            (if g.event_type ≠ 0 then g.event_type else g.req_request_type) 0
            (if g.PWM then 0 else g.value)]) ∧
    (¬ ((gpiowatch = true ∧ g.event_type ≠ 0) ∨
        (gpiowatch = false ∧ g.event_type = 0)) →
       (RequestLine g gpiowatch (some svc) requestRC errnoV).1 = EOK ∧
       (RequestLine g gpiowatch (some svc) requestRC errnoV).2.2 = []) := by
  by_cases hev : g.event_type = 0 <;> cases gpiowatch <;>
    simp [RequestLine, hev]

/-- Witness for C6: in watch mode, a line subscribed to both edges is
requested with its event type as the request type (value 0); the same line
in signal mode is not requested and RequestLine still reports EOK. -/
theorem requestLine_mode_gating_witness :
    (RequestLine ⟨9, 4, 26, "/HW/GPIO/P26", 0, 1, false, 6, 2, 0⟩ true
       (some "gpiowatch") (fun _ _ _ _ => 0) 5).2.2 =
      [Eff.hwRequest 9 6 0 0] ∧
    (RequestLine ⟨9, 4, 26, "/HW/GPIO/P26", 0, 1, false, 6, 2, 0⟩ false
       (some "gpioctrl") (fun _ _ _ _ => 0) 5).1 = EOK ∧
    (RequestLine ⟨9, 4, 26, "/HW/GPIO/P26", 0, 1, false, 6, 2, 0⟩ false
       (some "gpioctrl") (fun _ _ _ _ => 0) 5).2.2 = [] := by
  refine ⟨?_, ?_⟩
  · have h := (requestLine_mode_gating
      ⟨9, 4, 26, "/HW/GPIO/P26", 0, 1, false, 6, 2, 0⟩ true "gpiowatch"
      (fun _ _ _ _ => 0) 5).1 (Or.inl ⟨rfl, by decide⟩)
    simpa using h
  · exact (requestLine_mode_gating
      ⟨9, 4, 26, "/HW/GPIO/P26", 0, 1, false, 6, 2, 0⟩ false "gpioctrl"
      (fun _ _ _ _ => 0) 5).2 (by simp)

/-! ### Helper lemmas about the binder pipeline -/

/-- A descriptor produced by `CreateLine` carries the calloc zero defaults
in every field not taken from the configuration. -/
theorem createLine_zero_init (env : BindEnv) (node : LineNode) (g0 : GPIO)
    (h : CreateLine env node = some g0) :
    g0.value = 0 ∧ g0.direction = 0 ∧ g0.PWM = false ∧ g0.event_type = 0 ∧
    g0.req_request_type = 0 ∧ g0.req_flags = 0 := by
  unfold CreateLine at h
  cases hgv : GetVarHandle env node with
  | none => rw [hgv] at h; simp at h
  | some p =>
    obtain ⟨hh, vn⟩ := p
    rw [hgv] at h
    cases hla : node.lineAttr with
    | none => rw [hla] at h; simp at h
    | some ls =>
      rw [hla] at h
      cases hcg : env.chipGetLine (env.strtoul ls) with
      | none => simp only [hcg] at h; exact absurd h (by simp)
      | some pl =>
        simp only [hcg] at h
        injection h with h2
        subst h2
        exact ⟨rfl, rfl, rfl, rfl, rfl, rfl⟩

/-- `ParseLineActiveState` touches only `req_flags`. -/
theorem parseLineActiveState_preserves (g : GPIO) (node : LineNode) :
    (ParseLineActiveState g node).2.pLine = g.pLine ∧
    (ParseLineActiveState g node).2.direction = g.direction ∧
    (ParseLineActiveState g node).2.PWM = g.PWM ∧
    (ParseLineActiveState g node).2.event_type = g.event_type ∧
    (ParseLineActiveState g node).2.req_request_type = g.req_request_type ∧
    (ParseLineActiveState g node).2.value = g.value := by
  unfold ParseLineActiveState
  cases hs : node.active_state with
  | none => simp
  | some s =>
    by_cases h1 : s = "low" <;> by_cases h2 : s = "high" <;> simp [h1, h2]

/-- `ParseLineBias` touches only `req_flags`. -/
theorem parseLineBias_preserves (g : GPIO) (node : LineNode) :
    (ParseLineBias g node).2.pLine = g.pLine ∧
    (ParseLineBias g node).2.direction = g.direction ∧
    (ParseLineBias g node).2.PWM = g.PWM ∧
    (ParseLineBias g node).2.event_type = g.event_type ∧
    (ParseLineBias g node).2.req_request_type = g.req_request_type ∧
    (ParseLineBias g node).2.value = g.value := by
  unfold ParseLineBias
  cases hs : node.bias with
  | none => simp
  | some s =>
    by_cases h1 : s = "disabled" <;> by_cases h2 : s = "pull-down" <;>
      by_cases h3 : s = "pull-up" <;> simp [h1, h2, h3]

/-- `ParseLineDrive` touches only `req_flags`. -/
theorem parseLineDrive_preserves (g : GPIO) (node : LineNode) :
    (ParseLineDrive g node).2.pLine = g.pLine ∧
    (ParseLineDrive g node).2.direction = g.direction ∧
    (ParseLineDrive g node).2.PWM = g.PWM ∧
    (ParseLineDrive g node).2.event_type = g.event_type ∧
    (ParseLineDrive g node).2.req_request_type = g.req_request_type ∧
    (ParseLineDrive g node).2.value = g.value := by
  unfold ParseLineDrive
  cases hs : node.drive with
  | none => simp
  | some s =>
    by_cases h1 : s = "push-pull" <;> by_cases h2 : s = "open-source" <;>
      by_cases h3 : s = "open-drain" <;> simp [h1, h2, h3]

/-- A missing "event" attribute forces the subscription to none (0) and
touches nothing else. -/
theorem parseLineEvent_none (g : GPIO) (node : LineNode)
    (h : node.event = none) :
    ParseLineEvent g node = (EOK, { g with event_type := 0 }) := by
  unfold ParseLineEvent
  rw [h]

/-- Evaluation of `RequestLine` in signal mode for a line with no event
subscription: the request is performed with the accumulated request type,
zeroed flags and the descriptor's value (0 for PWM lines). -/
theorem requestLine_signal_noevent (g : GPIO) (svc : String)
    (rc : Nat → Int → Nat → Int → Int) (errnoV : Int)
    (hev0 : g.event_type = 0) :
    RequestLine g false (some svc) rc errnoV =
      ((if rc g.pLine g.req_request_type 0 (if g.PWM then 0 else g.value) = -1
        then errnoV else EOK),
       { g with req_flags := 0 },
       [Eff.hwRequest g.pLine g.req_request_type 0
          (if g.PWM then 0 else g.value)]) := by
  simp [RequestLine, hev0]

/-! ### Claim C7: unknown direction strings -/

/-- C7 counterexample: a line definition with direction "bogus" (variable
and line resolvable, no event subscription, process in signal mode) is
still requested from hardware: the `ParseLine` trace contains exactly one
`gpiod_line_request` (line handle 7, zero request type/flags/value), so the
claim that no hardware line-request is performed for such a line is false.
`ParseLine` ignores the ENOTSUP from `ParseLineDirection`. -/
theorem parseLine_unknown_direction_counterexample :
    (ParseLine
      ⟨fun _ => 2, fun _ => 4, fun _ => some 7, fun _ => some ⟨2, 0, 2⟩,
       false, "gpioctrl", fun _ _ _ _ => 0, 5⟩
      ⟨some "/HW/GPIO/P4", some "4", some "bogus", none, none, none, none⟩
      [] []).2.2.2 = [Eff.hwRequest 7 0 0 0] := by
  rfl

/-- C7 amended: a line definition whose direction attribute is present but
none of input/output/pwm is treated as a configuration error by
`ParseLineDirection` (ENOTSUP, descriptor untouched), but `ParseLine`
ignores that error and still performs the hardware line request (in the
matching signal mode, with the zero-initialized request type); a missing
direction attribute defaults to input. -/
theorem parseLine_unknown_direction_requested
    (env : BindEnv) (node : LineNode) (g0 : GPIO) (d : String)
    (chipLines : List GPIO) (monitored : List Nat)
    (hmode : env.gpiowatch = false)
    (hcreate : CreateLine env node = some g0)
    (hpl : g0.pLine ≠ 0)
    (hdir : node.direction = some d)
    (h1 : d ≠ "input") (h2 : d ≠ "output") (h3 : d ≠ "pwm")
    (hev : node.event = none) :
    ParseLineDirection env.varGet g0 node = (ENOTSUP, g0) ∧
    (ParseLine env node chipLines monitored).2.2.2 =
      [Eff.hwRequest g0.pLine 0 0 0] ∧
    (∀ g2 : GPIO, g2.pLine ≠ 0 → ∀ node2 : LineNode,
      node2.direction = none →
      ParseLineDirection env.varGet g2 node2 =
        (EOK, { g2 with direction := GPIOD_LINE_DIRECTION_INPUT,
                        req_request_type := GPIOD_LINE_REQUEST_DIRECTION_INPUT })) := by
  obtain ⟨hz1, hz2, hz3, hz4, hz5, hz6⟩ := createLine_zero_init env node g0 hcreate
  have hdir1 : ParseLineDirection env.varGet g0 node = (ENOTSUP, g0) := by
    unfold ParseLineDirection
    rw [if_neg hpl, hdir]
    simp [h1, h2, h3]
  refine ⟨hdir1, ?_, ?_⟩
  · have hevB : ∀ g : GPIO,
        ParseLineEvent g node = (EOK, { g with event_type := 0 }) :=
      fun g => parseLineEvent_none g node hev
    simp only [ParseLine, hcreate, hdir1, hevB]
    obtain ⟨hA1, hA2, hA3, hA4, hA5, hA6⟩ := parseLineActiveState_preserves g0 node
    generalize hga : (ParseLineActiveState g0 node).2 = gA at *
    generalize hgb : GPIO.mk gA.pLine gA.hVar gA.line_num gA.name gA.value
      gA.direction gA.PWM 0 gA.req_request_type gA.req_flags = gB
    have hgbP : gB.pLine = gA.pLine := by rw [← hgb]
    have hgbD : gB.direction = gA.direction := by rw [← hgb]
    have hgbW : gB.PWM = gA.PWM := by rw [← hgb]
    have hgbE : gB.event_type = 0 := by rw [← hgb]
    have hgbR : gB.req_request_type = gA.req_request_type := by rw [← hgb]
    have hgbV : gB.value = gA.value := by rw [← hgb]
    obtain ⟨hC1, hC2, hC3, hC4, hC5, hC6⟩ := parseLineBias_preserves gB node
    generalize hgc : (ParseLineBias gB node).2 = gC at *
    obtain ⟨hD1, hD2, hD3, hD4, hD5, hD6⟩ := parseLineDrive_preserves gC node
    generalize hgd : (ParseLineDrive gC node).2 = gD at *
    have hplD : gD.pLine = g0.pLine := by rw [hD1, hC1, hgbP, hA1]
    have hetD : gD.event_type = 0 := by rw [hD4, hC4, hgbE]
    have hpwmD : gD.PWM = false := by rw [hD3, hC3, hgbW, hA3, hz3]
    have hvalD : gD.value = 0 := by rw [hD6, hC6, hgbV, hA6, hz1]
    have hreqD : gD.req_request_type = 0 := by rw [hD5, hC5, hgbR, hA5, hz5]
    have hdirD : gD.direction = 0 := by rw [hD2, hC2, hgbD, hA2, hz2]
    rw [hmode, requestLine_signal_noevent gD env.service env.requestRC
      env.errnoV hetD]
    simp [SetupNotification, hdirD, hpwmD, hplD, hreqD, hvalD,
      GPIOD_LINE_DIRECTION_INPUT, GPIOD_LINE_DIRECTION_OUTPUT]
  · intro g2 hpl2 node2 hnone
    unfold ParseLineDirection
    rw [if_neg hpl2, hnone]
    simp

/-- Witness for the amended C7 at a concrete configuration: the trace of
`ParseLine` on a direction "bogus" line is exactly one hardware request of
the zero-initialized specification. -/
theorem parseLine_unknown_direction_requested_witness :
    (ParseLine
      ⟨fun _ => 3, fun _ => 6, fun _ => some 8, fun _ => some ⟨2, 0, 2⟩,
       false, "gpioctrl", fun _ _ _ _ => 0, 5⟩
      ⟨some "/HW/GPIO/P6", some "6", some "sideways", none, none, none, none⟩
      [] []).2.2.2 = [Eff.hwRequest 8 0 0 0] := by
  have h := (parseLine_unknown_direction_requested
    ⟨fun _ => 3, fun _ => 6, fun _ => some 8, fun _ => some ⟨2, 0, 2⟩,
     false, "gpioctrl", fun _ _ _ _ => 0, 5⟩
    ⟨some "/HW/GPIO/P6", some "6", some "sideways", none, none, none, none⟩
    ⟨8, 3, 6, "/HW/GPIO/P6", 0, 0, false, 0, 0, 0⟩ "sideways" [] []
    rfl (by decide) (by decide) rfl (by decide) (by decide) (by decide)
    rfl).2.1
  simpa using h

/-! ### Claim C8: best-effort binding -/

/-- The `ParseLine` callback always reports EOK to the iterator, whatever
happens to the individual line (gpioctrl.c line 838). -/
theorem parseLine_eok (env : BindEnv) (node : LineNode)
    (cl : List GPIO) (mon : List Nat) :
    (ParseLine env node cl mon).1 = EOK := by
  unfold ParseLine
  cases h : CreateLine env node <;> simp

/-- `ParseLine` appends one descriptor exactly when `CreateLine`
succeeds. -/
theorem parseLine_lines_length (env : BindEnv) (node : LineNode)
    (cl : List GPIO) (mon : List Nat) :
    (ParseLine env node cl mon).2.1.length =
      cl.length + (if (CreateLine env node).isSome then 1 else 0) := by
  unfold ParseLine
  cases h : CreateLine env node <;> simp

/-- C8 counterexample: a configuration with N=2 well-formed lines and one
line malformed only by an unknown direction string ("bogus") yields 3
bound descriptors, not 2 — the unknown-direction line is still created and
appended to the chip's line list. -/
theorem iterateLines_counterexample :
    (IterateLines
      ⟨fun s => if s = "/HW/A" then 1 else if s = "/HW/B" then 2
                else if s = "/HW/C" then 3 else 0,
       fun s => if s = "1" then 1 else if s = "2" then 2 else 3,
       fun n => some (n + 10), fun _ => some ⟨2, 0, 2⟩, false, "gpioctrl",
       fun _ _ _ _ => 0, 5⟩
      [⟨some "/HW/A", some "1", some "output", none, none, none, none⟩,
       ⟨some "/HW/B", some "2", some "bogus", none, none, none, none⟩,
       ⟨some "/HW/C", some "3", some "input", none, none, none, none⟩]
      [] []).2.1.length = 3 := by
  rfl

/-- C8 amended: binding is best-effort in the following sense: the per-line
parse callback always reports success (EOK) to the iterator, so no per-line
failure aborts the iteration and the whole array is processed; the number
of bound lines equals the number of line nodes whose variable and hardware
line resolve (`CreateLine` succeeds).  A line malformed because its
variable or line handle cannot be resolved therefore contributes no bound
line, but a line malformed only by an unknown direction string still
produces a bound descriptor. -/
theorem iterateLines_best_effort (env : BindEnv) (nodes : List LineNode)
    (chipLines : List GPIO) (monitored : List Nat) :
    (∀ (node : LineNode) (cl : List GPIO) (mon : List Nat),
      (ParseLine env node cl mon).1 = EOK) ∧
    (IterateLines env nodes chipLines monitored).1 = EOK ∧
    (IterateLines env nodes chipLines monitored).2.1.length =
      chipLines.length +
        (nodes.filter fun n => (CreateLine env n).isSome).length := by
  have main : ∀ (ns : List LineNode) (cl : List GPIO) (mon : List Nat),
      (IterateLines env ns cl mon).1 = EOK ∧
      (IterateLines env ns cl mon).2.1.length =
        cl.length + (ns.filter fun n => (CreateLine env n).isSome).length := by
    intro ns
    induction ns with
    | nil => intro cl mon; simp [IterateLines]
    | cons n rest ih =>
      intro cl mon
      simp only [IterateLines, parseLine_eok, if_pos]
      refine ⟨(ih _ _).1, ?_⟩
      rw [(ih _ _).2, parseLine_lines_length]
      by_cases hc : (CreateLine env n).isSome
      · simp [hc, List.filter_cons]
        omega
      · simp [hc, List.filter_cons]
  exact ⟨fun node cl mon => parseLine_eok env node cl mon,
    (main nodes chipLines monitored).1, (main nodes chipLines monitored).2⟩

/-! ### Round-trip lemmas for the status report parser -/

/-- `expectStr` consumes exactly the literal it expects. -/
theorem expectStr_append (lit rest : List Char) :
    expectStr lit (lit ++ rest) = some rest := by
  induction lit with
  | nil => rfl
  | cons c cs ih => simp [expectStr, ih]

/-- `parseName` consumes a quote-free body and its closing quote. -/
theorem parseName_append (nm : List Char) (h : ∀ c ∈ nm, c ≠ '"') :
    ∀ rest : List Char, parseName (nm ++ '"' :: rest) = some (nm, rest) := by
  induction nm with
  | nil => intro rest; simp [parseName]
  | cons c cs ih =>
    intro rest
    have hc : c ≠ '"' := h c (by simp)
    simp [parseName, hc, ih (fun x hx => h x (by simp [hx])) rest]

/-- Build `headNotDigit` from the head character. -/
theorem headNotDigit_cons (c : Char) (l : List Char) (h : c.isDigit = false) :
    headNotDigit (c :: l) := h

/-- The digit characters 0-9 satisfy `Char.isDigit`. -/
theorem digitChar_isDigit : ∀ d : Nat, d < 10 → (Nat.digitChar d).isDigit = true := by
  decide

/-- Decoding a digit character recovers the digit. -/
theorem digitChar_toNat : ∀ d : Nat, d < 10 → (Nat.digitChar d).toNat - 48 = d := by
  decide

/-- Digit characters are not the minus sign. -/
theorem digitChar_ne_dash : ∀ d : Nat, d < 10 → Nat.digitChar d ≠ '-' := by
  decide

/-- `natDigitsAux` does not depend on the fuel once it exceeds `n`. -/
theorem natDigitsAux_irrel : ∀ (fuel fuel2 n : Nat), n < fuel → n < fuel2 →
    natDigitsAux fuel n = natDigitsAux fuel2 n := by
  intro fuel
  induction fuel with
  | zero => intro fuel2 n h _; exact absurd h (Nat.not_lt_zero n)
  | succ f ih =>
    intro fuel2 n h h2
    cases fuel2 with
    | zero => exact absurd h2 (Nat.not_lt_zero n)
    | succ f2 =>
      simp only [natDigitsAux]
      by_cases h10 : n < 10
      · simp [h10]
      · simp only [h10, if_false]
        rw [ih f2 (n / 10) (by omega) (by omega)]

/-- One unfolding step of the fuelled digit accumulator. -/
theorem natDigitsAux_succ (f n : Nat) :
    natDigitsAux (f + 1) n = if n < 10 then [Nat.digitChar n]
    else natDigitsAux f (n / 10) ++ [Nat.digitChar (n % 10)] := rfl

/-- The recursion equation of `natDigits`. -/
theorem natDigits_eq (n : Nat) :
    natDigits n = if n < 10 then [Nat.digitChar n]
    else natDigits (n / 10) ++ [Nat.digitChar (n % 10)] := by
  unfold natDigits
  rw [natDigitsAux_succ]
  by_cases h10 : n < 10
  · simp [h10]
  · simp only [h10, if_false]
    rw [natDigitsAux_irrel n (n / 10 + 1) (n / 10) (by omega) (by omega)]

/-- Every character of `natDigits` is a digit. -/
theorem natDigits_digits (n : Nat) : ∀ c ∈ natDigits n, c.isDigit = true := by
  induction n using Nat.strong_induction_on with
  | _ n ih =>
    rw [natDigits_eq]
    by_cases h : n < 10
    · simp only [h, if_true]
      intro c hc
      simp only [List.mem_singleton] at hc
      rw [hc]
      exact digitChar_isDigit n h
    · simp only [h, if_false]
      intro c hc
      rcases List.mem_append.mp hc with h1 | h1
      · exact ih (n / 10) (by omega) c h1
      · simp only [List.mem_singleton] at h1
        rw [h1]
        exact digitChar_isDigit (n % 10) (by omega)

/-- `natDigits` is never empty. -/
theorem natDigits_ne_nil (n : Nat) : natDigits n ≠ [] := by
  rw [natDigits_eq]
  split_ifs <;> simp

/-- `parseNatAux` folds over a leading run of digits. -/
theorem parseNatAux_digits (ds : List Char) (hds : ∀ c ∈ ds, c.isDigit = true) :
    ∀ (rest : List Char) (acc : Nat),
      parseNatAux (ds ++ rest) acc = parseNatAux rest (ds.foldl stepD acc) := by
  induction ds with
  | nil => intro rest acc; simp
  | cons c cs ih =>
    intro rest acc
    have hc : c.isDigit = true := hds c (by simp)
    simp only [List.cons_append, parseNatAux, hc, if_true, List.foldl_cons]
    exact ih (fun x hx => hds x (by simp [hx])) rest _

/-- `parseNatAux` stops at a non-digit. -/
theorem parseNatAux_stop (cs : List Char) (acc : Nat) (h : headNotDigit cs) :
    parseNatAux cs acc = (acc, cs) := by
  cases cs with
  | nil => rfl
  | cons c l =>
    have hc : c.isDigit = false := h
    simp [parseNatAux, hc]

/-- Folding the digit step over `natDigits n` reconstructs `n`. -/
theorem foldl_natDigits (n : Nat) :
    ∀ acc : Nat,
      (natDigits n).foldl stepD acc = acc * 10 ^ (natDigits n).length + n := by
  induction n using Nat.strong_induction_on with
  | _ n ih =>
    intro acc
    rw [natDigits_eq]
    by_cases h : n < 10
    · simp only [h, if_true, List.foldl_cons, List.foldl_nil,
        List.length_singleton, pow_one, stepD]
      rw [digitChar_toNat n h]
    · simp only [h, if_false, List.foldl_append, List.foldl_cons,
        List.foldl_nil, List.length_append, List.length_singleton]
      rw [ih (n / 10) (by omega) acc]
      simp only [stepD]
      rw [digitChar_toNat (n % 10) (by omega), pow_succ, ← mul_assoc]
      omega

/-- Round trip for natural-number rendering. -/
theorem parseNatAux_natDigits (n : Nat) (rest : List Char)
    (hrest : headNotDigit rest) :
    parseNatAux (natDigits n ++ rest) 0 = (n, rest) := by
  rw [parseNatAux_digits (natDigits n) (natDigits_digits n) rest 0,
    parseNatAux_stop rest _ hrest, foldl_natDigits n 0]
  simp

/-- Round trip for printf %d rendering of a C int. -/
theorem parseInt_intRepr (i : Int) (rest : List Char)
    (hrest : headNotDigit rest) :
    parseInt (intRepr i ++ rest) = (i, rest) := by
  unfold intRepr
  by_cases h : i < 0
  · rw [if_pos h]
    simp only [List.cons_append, parseInt, if_pos rfl,
      parseNatAux_natDigits _ _ hrest]
    simp only [if_true, Prod.mk.injEq]
    exact ⟨by omega, trivial⟩
  · rw [if_neg h]
    have hp := parseNatAux_natDigits i.toNat rest hrest
    cases hne : natDigits i.toNat with
    | nil => exact absurd hne (natDigits_ne_nil _)
    | cons c cs =>
      have hcd : c.isDigit = true := by
        apply natDigits_digits i.toNat
        rw [hne]; simp
      have hdash : c ≠ '-' := by
        intro hh
        rw [hh] at hcd
        exact absurd hcd (by decide)
      rw [hne] at hp
      simp only [List.cons_append] at hp
      simp only [List.cons_append, parseInt, hdash, if_false, hp]
      simp only [Prod.mk.injEq]
      exact ⟨by omega, trivial⟩

/-! ### Literal-chunk decompositions (all definitional) -/

/-- `litLineB` starts with a comma, so a number followed by it parses
greedily and stops correctly. -/
theorem headNotDigit_litLineB (X : List Char) : headNotDigit (litLineB ++ X) :=
  headNotDigit_cons _ _ (by decide)

/-- `litLineC` is the closing quote followed by `litLineCtail`. -/
theorem litLineC_cons (Y : List Char) :
    litLineC ++ Y = '"' :: (litLineCtail ++ Y) := rfl

/-- `litLineD` is the closing quote followed by `litClose`. -/
theorem litLineD_cons (Y : List Char) :
    litLineD ++ Y = '"' :: (litClose ++ Y) := rfl

/-- `litChipB` is the closing quote followed by `litChipBtail`. -/
theorem litChipB_cons (Y : List Char) :
    litChipB ++ Y = '"' :: (litChipBtail ++ Y) := rfl

/-! ### Round trip: line objects -/

/-- Parsing the serialized form of one good line recovers its entry. -/
theorem parseLineObj_print (lineName : Nat → Option String) (g : GPIO)
    (hg : GoodLine lineName g) :
    ∀ rest : List Char,
      parseLineObj (printLine lineName g ++ rest) =
        some (lineEntry lineName g, rest) := by
  obtain ⟨hp, hn, hv⟩ := hg
  intro rest
  have hpiG : ∀ X, parseInt (intRepr g.line_num ++ (litLineB ++ X)) =
      (g.line_num, litLineB ++ X) := fun X =>
    parseInt_intRepr _ _ (headNotDigit_litLineB X)
  unfold printLine
  rw [if_neg hp]
  simp only [List.append_assoc, List.cons_append, parseLineObj,
    expectStr_append, hpiG, litLineC_cons, litLineD_cons,
    parseName_append _ hn, parseName_append _ hv, lineEntry]

/-- Stepping `parseLinesGo` over a comma. -/
theorem parseLinesGo_comma (fuel2 : Nat) (cs : List Char) :
    parseLinesGo (fuel2 + 1) (',' :: cs) =
      (match parseLineObj cs with
       | none => none
       | some (e, cs2) =>
         match parseLinesGo fuel2 cs2 with
         | none => none
         | some (l, rest) => some (e :: l, rest)) := by
  rfl

/-- The tail of a serialized line array (comma-separated, closed by a
bracket) parses back to the corresponding entries. -/
theorem parseLinesGo_print (lineName : Nat → Option String) (gs : List GPIO)
    (hgood : ∀ g ∈ gs, GoodLine lineName g) :
    ∀ (fuel : Nat), gs.length ≤ fuel → ∀ rest : List Char,
      parseLinesGo fuel (printLinesTail lineName gs ++ ']' :: rest) =
        some (gs.map (lineEntry lineName), rest) := by
  induction gs with
  | nil =>
    intro fuel _ rest
    cases fuel <;> rfl
  | cons g gs2 ih =>
    intro fuel hf rest
    cases fuel with
    | zero => simp at hf
    | succ fuel2 =>
      have hgl := hgood g (by simp)
      have ihh := ih (fun x hx => hgood x (by simp [hx])) fuel2
        (by simp at hf; omega) rest
      simp only [printLinesTail, List.cons_append, List.append_assoc]
      rw [parseLinesGo_comma, parseLineObj_print lineName g hgl]
      simp [ihh]

/-- The serialized form of a live line starts with an opening brace. -/
theorem printLine_cons (lineName : Nat → Option String) (g : GPIO)
    (hp : g.pLine ≠ 0) :
    ∃ t : List Char, printLine lineName g = '\x7b' :: t := by
  unfold printLine
  rw [if_neg hp]
  exact ⟨_, rfl⟩

/-- `parseLinesList` on input not starting with the closing bracket parses
one object and then the tail. -/
theorem parseLinesList_cons (fuel : Nat) (c : Char) (cs : List Char)
    (hc : ¬ c = ']') :
    parseLinesList fuel (c :: cs) =
      (match parseLineObj (c :: cs) with
       | none => none
       | some (e, cs3) =>
         match parseLinesGo fuel cs3 with
         | none => none
         | some (l, rest) => some (e :: l, rest)) := by
  simp [parseLinesList, hc]

/-- A full serialized line array parses back to the entries. -/
theorem parseLinesList_print (lineName : Nat → Option String) (gs : List GPIO)
    (hgood : ∀ g ∈ gs, GoodLine lineName g) :
    ∀ (fuel : Nat), gs.length ≤ fuel + 1 → ∀ rest : List Char,
      parseLinesList fuel (printLines lineName gs ++ ']' :: rest) =
        some (gs.map (lineEntry lineName), rest) := by
  cases gs with
  | nil =>
    intro fuel _ rest
    simp [printLines, parseLinesList]
  | cons g gs2 =>
    intro fuel hf rest
    have hgl := hgood g (by simp)
    obtain ⟨t, ht⟩ := printLine_cons lineName g hgl.1
    have hshape : printLines lineName (g :: gs2) ++ ']' :: rest =
        '\x7b' :: (t ++ (printLinesTail lineName gs2 ++ ']' :: rest)) := by
      simp only [printLines, List.append_assoc, ht, List.cons_append]
    rw [hshape, parseLinesList_cons _ _ _ (by decide)]
    rw [show ('\x7b' ::
        (t ++ (printLinesTail lineName gs2 ++ ']' :: rest)) : List Char) =
        printLine lineName g ++ (printLinesTail lineName gs2 ++ ']' :: rest)
      from by simp [ht]]
    have hgo := parseLinesGo_print lineName gs2
      (fun x hx => hgood x (by simp [hx])) fuel (by simp at hf; omega) rest
    simp only [parseLineObj_print lineName g hgl, hgo, List.map_cons]

/-! ### Round trip: chip objects and the full report -/

/-- `litChipC` is the array-closing bracket followed by the chip's closing
brace. -/
theorem litChipC_cons (Y : List Char) :
    litChipC ++ Y = ']' :: (litClose ++ Y) := rfl

/-- The emitted line-list tail is at least as long as the line list (each
entry contributes at least its comma). -/
theorem printLinesTail_length_ge (lineName : Nat → Option String)
    (gs : List GPIO) : gs.length ≤ (printLinesTail lineName gs).length := by
  induction gs with
  | nil => simp [printLinesTail]
  | cons g gs2 ih =>
    simp only [printLinesTail, List.length_cons, List.length_append]
    omega

/-- The emitted line list is at least one shorter than needed to bound the
line count. -/
theorem printLines_length_ge (lineName : Nat → Option String)
    (gs : List GPIO) : gs.length ≤ (printLines lineName gs).length + 1 := by
  cases gs with
  | nil => simp
  | cons g gs2 =>
    have h := printLinesTail_length_ge lineName gs2
    simp only [printLines, List.length_cons, List.length_append]
    omega

/-- The emitted chip-list tail is at least as long as the chip list. -/
theorem printChipsTail_length_ge (lineName : Nat → Option String)
    (cs : List GPIOChip) : cs.length ≤ (printChipsTail lineName cs).length := by
  induction cs with
  | nil => simp [printChipsTail]
  | cons c cs2 ih =>
    simp only [printChipsTail, List.length_cons, List.length_append]
    omega

/-- The serialized form of a chip starts with an opening brace. -/
theorem printChip_cons (lineName : Nat → Option String) (c : GPIOChip) :
    ∃ t : List Char, printChip lineName c = '\x7b' :: t := by
  unfold printChip
  exact ⟨_, rfl⟩

/-- Parsing the serialized form of one good chip recovers its entry. -/
theorem parseChip_print (lineName : Nat → Option String) (c : GPIOChip)
    (hc : GoodChip lineName c) :
    ∀ rest : List Char,
      parseChip (printChip lineName c ++ rest) =
        some ((c.name.toList, c.lines.map (lineEntry lineName)), rest) := by
  obtain ⟨hcn, hls⟩ := hc
  intro rest
  have hfin : ∀ L : Nat, c.lines.length ≤ L + 1 →
      (match parseLinesList L
          (printLines lineName c.lines ++ ']' :: (litClose ++ rest)) with
       | none => none
       | some (ls, cs4) =>
         match expectStr litClose cs4 with
         | none => none
         | some cs5 => some ((c.name.toList, ls), cs5)) =
        some ((c.name.toList, c.lines.map (lineEntry lineName)), rest) := by
    intro L hb
    rw [parseLinesList_print lineName c.lines hls L hb (litClose ++ rest)]
    simp [expectStr_append]
  simp only [printChip, List.append_assoc, parseChip, expectStr_append,
    litChipB_cons, litChipC_cons, List.cons_append, parseName_append _ hcn]
  refine hfin _ ?_
  have h1 := printLines_length_ge lineName c.lines
  simp only [List.length_append, List.length_cons]
  omega

/-- Stepping `parseChipsGo` over a comma. -/
theorem parseChipsGo_comma (fuel2 : Nat) (cs : List Char) :
    parseChipsGo (fuel2 + 1) (',' :: cs) =
      (match parseChip cs with
       | none => none
       | some (e, cs2) =>
         match parseChipsGo fuel2 cs2 with
         | none => none
         | some (l, rest) => some (e :: l, rest)) := by
  rfl

/-- The tail of the serialized chip array parses back to the corresponding
entries. -/
theorem parseChipsGo_print (lineName : Nat → Option String)
    (chips : List GPIOChip) (hgood : ∀ c ∈ chips, GoodChip lineName c) :
    ∀ (fuel : Nat), chips.length ≤ fuel → ∀ rest : List Char,
      parseChipsGo fuel (printChipsTail lineName chips ++ ']' :: rest) =
        some (statusListing lineName chips, rest) := by
  induction chips with
  | nil =>
    intro fuel _ rest
    cases fuel <;> rfl
  | cons c chips2 ih =>
    intro fuel hf rest
    cases fuel with
    | zero => simp at hf
    | succ fuel2 =>
      have hgc := hgood c (by simp)
      have ihh := ih (fun x hx => hgood x (by simp [hx])) fuel2
        (by simp at hf; omega) rest
      simp only [printChipsTail, List.cons_append, List.append_assoc]
      rw [parseChipsGo_comma, parseChip_print lineName c hgc]
      simp [ihh, statusListing]

/-! ### Claim C9: the status report round trip -/

/-- Stepping `parseStatus` into a nonempty chip array. -/
theorem parseStatus_cons (c2 : Char) (cs3 : List Char) (hc : ¬ c2 = ']') :
    parseStatus ('[' :: c2 :: cs3) =
      (match parseChip (c2 :: cs3) with
       | none => none
       | some (ce, cs4) =>
         match parseChipsGo ('[' :: c2 :: cs3).length cs4 with
         | none => none
         | some (l, rest) =>
           if rest = [] then some (ce :: l) else none) := by
  simp [parseStatus, hc]

/-- C9 counterexample: the claim's universal quantification over every
registry state is false: `PrintStatus` does no escaping, so a variable
name containing a quote character ("a\"b") yields the chunk
`"var" : "a"b"\x7d` and the output does not parse back at all — the parser
returns `none`, which in particular differs from the registry's listing. -/
theorem printStatus_roundtrip_counterexample :
    parseStatus (PrintStatus (fun _ => none)
      [⟨"gpiochip0", [⟨5, 3, 4, "a\"b", 0, 2, false, 0, 3, 0⟩]⟩]) = none ∧
    (none : Option (List ChipEntry)) ≠
      some (statusListing (fun _ => none)
        [⟨"gpiochip0", [⟨5, 3, 4, "a\"b", 0, 2, false, 0, 3, 0⟩]⟩]) := by
  exact ⟨rfl, by simp⟩

/-- C9 amended: for every registry state whose line descriptors hold live
(non-NULL) gpiod handles and whose chip names, variable names and
hardware-reported line names contain no quote character, the status report
serializes exactly the chips and lines present in the registry, in
chip-then-line insertion order, as a JSON array of
`\x7b"chip":..,"lines":[\x7b"line":N,"name":"...","var":"..."\x7d]\x7d`
objects: parsing the output back recovers exactly the abstract listing of
the bound chips and lines in original definition order.  (`PrintStatus`
does no escaping, so on a name with an embedded quote the output is
unparseable and the round trip fails.) -/
theorem printStatus_roundtrip (lineName : Nat → Option String)
    (chips : List GPIOChip) (hgood : ∀ c ∈ chips, GoodChip lineName c) :
    parseStatus (PrintStatus lineName chips) =
      some (statusListing lineName chips) := by
  cases chips with
  | nil => rfl
  | cons c chips2 =>
    have hgc := hgood c (by simp)
    obtain ⟨t, ht⟩ := printChip_cons lineName c
    have hfin : ∀ L : Nat, chips2.length ≤ L →
        (match parseChipsGo L
            (printChipsTail lineName chips2 ++ ']' :: ([] : List Char)) with
         | none => none
         | some (l, rest) =>
           if rest = [] then
             some ((c.name.toList, c.lines.map (lineEntry lineName)) :: l)
           else none) =
        some (statusListing lineName (c :: chips2)) := by
      intro L hb
      rw [parseChipsGo_print lineName chips2
        (fun x hx => hgood x (by simp [hx])) L hb []]
      simp [statusListing]
    rw [show PrintStatus lineName (c :: chips2) =
        '[' :: '\x7b' :: (t ++ (printChipsTail lineName chips2 ++ [']']))
      from by simp [PrintStatus, printChips, ht, List.append_assoc]]
    rw [parseStatus_cons _ _ (by decide)]
    rw [show ('\x7b' ::
        (t ++ (printChipsTail lineName chips2 ++ [']'])) : List Char) =
        printChip lineName c ++ (printChipsTail lineName chips2 ++ ']' :: [])
      from by simp [ht]]
    rw [parseChip_print lineName c hgc]
    refine hfin _ ?_
    have h1 := printChipsTail_length_ge lineName chips2
    simp only [List.length_cons, List.length_append]
    omega

/-- Witness for C9: a one-chip registry with a plain output line (hardware
name "GPIO4") and a polled input line (hardware name unknown) serializes
and parses back to exactly the two lines in definition order. -/
theorem printStatus_roundtrip_witness :
    parseStatus (PrintStatus (fun n => if n = 5 then some "GPIO4" else none)
      [⟨"gpiochip0",
        [⟨5, 3, 4, "/HW/GPIO/P4", 0, 2, false, 0, 3, 0⟩,
         ⟨9, 4, 26, "/HW/GPIO/P26", 0, 1, false, 0, 2, 0⟩]⟩]) =
      some (statusListing (fun n => if n = 5 then some "GPIO4" else none)
        [⟨"gpiochip0",
          [⟨5, 3, 4, "/HW/GPIO/P4", 0, 2, false, 0, 3, 0⟩,
           ⟨9, 4, 26, "/HW/GPIO/P26", 0, 1, false, 0, 2, 0⟩]⟩]) :=
  printStatus_roundtrip (fun n => if n = 5 then some "GPIO4" else none)
    [⟨"gpiochip0",
      [⟨5, 3, 4, "/HW/GPIO/P4", 0, 2, false, 0, 3, 0⟩,
       ⟨9, 4, 26, "/HW/GPIO/P26", 0, 1, false, 0, 2, 0⟩]⟩]
    (by decide)

end Gpioctrl
